import Mathlib

/-!
Verification development for `pareto/utilities/cm_utils/opt_utils.py`.

The module under study contains four functions:
* `max_theoretical_recovery_flow`: a greedy sort-and-accumulate computation
  of the largest flow keeping the Li concentration above a desired level;
* `max_theoretical_recovery_flow_opt`: the same quantity obtained by
  solving a small LP with an external solver;
* `max_recovery_with_infrastructure` and `cost_optimal`: two-stage solve
  orchestration over a single Pyomo model built by `build_qcp_br`.

Python floats are embedded as rationals, Python exceptions as an error
type in `Except`, and the external solver as an oracle parameter.
-/

namespace ParetoCM

/-- Python-level exceptions that the embedded functions can raise:
`assert` failure, division by zero, and the error raised by
`pyo.assert_optimal_termination` when a solve is not optimal. -/
inductive PyErr
  | assertionError
  | zeroDivisionError
  | nonOptimalTermination
deriving DecidableEq, Repr

/-- The slice of the Pyomo model read by `max_theoretical_recovery_flow`
and `max_theoretical_recovery_flow_opt`: parameters `p_alpha` (treatment
efficiency per unit and species), `p_alphaW` (water recovery fraction per
unit), `p_FGen` (generated flow, an ordered indexed parameter whose index
is a (site, time) pair), and `p_CGen` (generated concentration, indexed by
site, species, time). -/
structure GModel where
  p_alpha : String → String → ℚ
  p_alphaW : String → ℚ
  p_FGen : List ((String × String) × ℚ)
  p_CGen : String → String → String → ℚ

/-- The loop of `max_theoretical_recovery_flow` (source lines 49-68):
walk the (flow, concentration) pairs accumulating `cumulative_f` and
`cumulative_li`; while the blended concentration `cli / cf` stays strictly
above the target the whole pair is taken; at the first pair bringing the
blend to or below the target, the fractional flow
`(cumulative_li - T * cumulative_f) / (T - c)` is added and the loop stops.
Python raises `ZeroDivisionError` on a zero denominator; here that becomes
an explicit error case, checked exactly where Python would divide: at the
blend `cli / cf` of line 55, at the fraction denominator `T - c` of lines
61-63, and at the final blend `cumulative_li / cumulative_f` of line 67,
whose denominator is the updated cumulative flow `cf0 + ff`. -/
def accumulate (T : ℚ) : List (ℚ × ℚ) → ℚ → ℚ → Except PyErr ℚ
  | [], cf0, _ => .ok cf0
  | (f, c) :: rest, cf0, cli0 =>
    if cf0 + f = 0 then .error .zeroDivisionError
    else if T < (cli0 + f * c) / (cf0 + f) then accumulate T rest (cf0 + f) (cli0 + f * c)
    else if T - c = 0 then .error .zeroDivisionError
    else if cf0 + (cli0 - T * cf0) / (T - c) = 0 then .error .zeroDivisionError
    else .ok (cf0 + (cli0 - T * cf0) / (T - c))

/-- The list built at source lines 38-44: for each index `t` of `p_FGen`,
the pair `(p_FGen[t] * 7, p_CGen[t[0], "Li", t[1]])`. -/
def pairsOf (m : GModel) : List (ℚ × ℚ) :=
  m.p_FGen.map (fun t => (t.2 * 7, m.p_CGen t.1.1 "Li" t.1.2))

/-- The comparison used at source line 45: `sort(key=lambda t: t[1],
reverse=True)`, i.e. `a` comes before `b` when the concentration of `b`
is at most the concentration of `a`. -/
def concGE (a b : ℚ × ℚ) : Prop := b.2 ≤ a.2

instance : DecidableRel concGE := fun a b => inferInstanceAs (Decidable (b.2 ≤ a.2))

instance : IsTotal (ℚ × ℚ) concGE := ⟨fun a b => le_total b.2 a.2⟩

instance : IsTrans (ℚ × ℚ) concGE := ⟨fun _ _ _ h h' => le_trans h' h⟩

/-- Source line 45: the pair list sorted by concentration, largest first
(the stable Python sort with `reverse=True`). -/
def sortedPairsOf (m : GModel) : List (ℚ × ℚ) :=
  (pairsOf m).insertionSort concGE

/-- Source lines 22-70, `max_theoretical_recovery_flow(model,
treatment_unit, desired_li_conc)`: assert the Li efficiency exceeds 0.999,
adjust the target by `(1 - alphaW)`, run the greedy accumulation over the
sorted pairs starting from `(0, 0)`, and scale the result by
`(1 - alphaW)`. -/
def max_theoretical_recovery_flow (m : GModel) (treatment_unit : String)
    (desired_li_conc : ℚ) : Except PyErr ℚ :=
  if (999 : ℚ)/1000 < m.p_alpha treatment_unit "Li" then
    let alphaW := m.p_alphaW treatment_unit
    let T := desired_li_conc * (1 - alphaW)
    (accumulate T (sortedPairsOf m) 0 0).map (fun cf => cf * (1 - alphaW))
  else .error .assertionError

/-- Source lines 73-110, `max_theoretical_recovery_flow_opt`: assert the
efficiency, build the LP, solve it with the external solver, abort unless
the termination is optimal, and return the reported `cumulative_F` scaled
by `(1 - alphaW)`.  The external solve is an oracle argument: `none` means
a non-optimal termination status, `some s` means an optimal termination
reporting `cumulative_F = s`. -/
def max_theoretical_recovery_flow_opt (m : GModel) (treatment_unit : String)
    (desired_li_conc : ℚ) (res : Option ℚ) : Except PyErr ℚ :=
  if (999 : ℚ)/1000 < m.p_alpha treatment_unit "Li" then
    match res with
    | none => .error .nonOptimalTermination
    | some s => .ok (s * (1 - m.p_alphaW treatment_unit))
  else .error .assertionError

/-! ### Fractional selections from a pair list

The LP of `max_theoretical_recovery_flow_opt` (source lines 91-105) selects
a flow between `0` and `p_FGen[k] * 7` from every source and maximises the
cumulative flow subject to the total lithium being at least the adjusted
target times the cumulative flow.  `selSums` captures the attainable
(total flow, total lithium) pairs of such selections. -/

/-- Total flow when every pair of the list is taken in full. -/
def capFlow (l : List (ℚ × ℚ)) : ℚ := (l.map Prod.fst).sum

/-- Total lithium when every pair of the list is taken in full. -/
def capLi (l : List (ℚ × ℚ)) : ℚ := (l.map (fun p => p.1 * p.2)).sum

/-- Attainable (total flow, total lithium) pairs when selecting, possibly
fractionally, from the pair list: each pair contributes a flow between `0`
and its full flow, at its concentration. -/
def selSums : List (ℚ × ℚ) → Set (ℚ × ℚ)
  | [] => {(0, 0)}
  | p :: rest =>
      {q | ∃ x r, 0 ≤ x ∧ x ≤ p.1 ∧ r ∈ selSums rest ∧ q = (r.1 + x, r.2 + x * p.2)}

/-- Total flows attainable while keeping the total lithium at least `T`
times the total flow (flow-weighted average concentration at least `T`,
the empty selection being allowed). -/
def flowSet (l : List (ℚ × ℚ)) (T : ℚ) : Set ℚ :=
  {s | ∃ q ∈ selSums l, q.1 = s ∧ T * s ≤ q.2}

lemma selSums_nil {q : ℚ × ℚ} : q ∈ selSums [] ↔ q = (0, 0) := Iff.rfl

lemma selSums_cons {p : ℚ × ℚ} {l : List (ℚ × ℚ)} {q : ℚ × ℚ} :
    q ∈ selSums (p :: l) ↔
      ∃ x r, 0 ≤ x ∧ x ≤ p.1 ∧ r ∈ selSums l ∧ q = (r.1 + x, r.2 + x * p.2) :=
  Iff.rfl

lemma capFlow_nil : capFlow [] = 0 := rfl

lemma capFlow_cons (p : ℚ × ℚ) (l : List (ℚ × ℚ)) :
    capFlow (p :: l) = p.1 + capFlow l := by
  simp [capFlow]

lemma capLi_nil : capLi [] = 0 := rfl

lemma capLi_cons (p : ℚ × ℚ) (l : List (ℚ × ℚ)) :
    capLi (p :: l) = p.1 * p.2 + capLi l := by
  simp [capLi]

lemma capFlow_append (A B : List (ℚ × ℚ)) :
    capFlow (A ++ B) = capFlow A + capFlow B := by
  simp [capFlow]

lemma capLi_append (A B : List (ℚ × ℚ)) :
    capLi (A ++ B) = capLi A + capLi B := by
  simp [capLi]

lemma capFlow_nonneg {l : List (ℚ × ℚ)} (h : ∀ p ∈ l, 0 ≤ p.1) :
    0 ≤ capFlow l := by
  induction l with
  | nil => simp [capFlow_nil]
  | cons p l ih =>
      rw [capFlow_cons]
      have h1 : 0 ≤ p.1 := h p (List.mem_cons_self _ _)
      have h2 : 0 ≤ capFlow l := ih fun q hq => h q (List.mem_cons_of_mem _ hq)
      linarith

lemma zero_mem_selSums {l : List (ℚ × ℚ)} (h : ∀ p ∈ l, 0 ≤ p.1) :
    (0, 0) ∈ selSums l := by
  induction l with
  | nil => exact selSums_nil.mpr rfl
  | cons p l ih =>
      refine selSums_cons.mpr ⟨0, (0, 0), le_refl 0, h p (List.mem_cons_self _ _),
        ih fun q hq => h q (List.mem_cons_of_mem _ hq), ?_⟩
      simp

lemma capSel_mem_selSums {l : List (ℚ × ℚ)} (h : ∀ p ∈ l, 0 ≤ p.1) :
    (capFlow l, capLi l) ∈ selSums l := by
  induction l with
  | nil => exact selSums_nil.mpr rfl
  | cons p l ih =>
      refine selSums_cons.mpr ⟨p.1, (capFlow l, capLi l), h p (List.mem_cons_self _ _),
        le_refl _, ih fun q hq => h q (List.mem_cons_of_mem _ hq), ?_⟩
      rw [capFlow_cons, capLi_cons]
      simp only [Prod.mk.injEq]
      constructor <;> ring

lemma selSums_flow_nonneg {l : List (ℚ × ℚ)} {q : ℚ × ℚ} (hq : q ∈ selSums l) :
    0 ≤ q.1 := by
  induction l generalizing q with
  | nil => rw [selSums_nil] at hq; simp [hq]
  | cons p l ih =>
      obtain ⟨x, r, hx0, _, hr, rfl⟩ := selSums_cons.mp hq
      have := ih hr
      simp only []
      linarith

lemma selSums_flow_le_cap {l : List (ℚ × ℚ)} {q : ℚ × ℚ} (hq : q ∈ selSums l) :
    q.1 ≤ capFlow l := by
  induction l generalizing q with
  | nil => rw [selSums_nil] at hq; simp [hq, capFlow_nil]
  | cons p l ih =>
      obtain ⟨x, r, _, hxc, hr, rfl⟩ := selSums_cons.mp hq
      have := ih hr
      rw [capFlow_cons]
      simp only []
      linarith

lemma selSums_li_le {c : ℚ} {l : List (ℚ × ℚ)} (hc : ∀ p ∈ l, p.2 ≤ c)
    {q : ℚ × ℚ} (hq : q ∈ selSums l) : q.2 ≤ c * q.1 := by
  induction l generalizing q with
  | nil => rw [selSums_nil] at hq; simp [hq]
  | cons p l ih =>
      obtain ⟨x, r, hx0, _, hr, rfl⟩ := selSums_cons.mp hq
      have h1 : r.2 ≤ c * r.1 := ih (fun q hq => hc q (List.mem_cons_of_mem _ hq)) hr
      have h2 : p.2 ≤ c := hc p (List.mem_cons_self _ _)
      have h3 : x * p.2 ≤ x * c := mul_le_mul_of_nonneg_left h2 hx0
      simp only []
      nlinarith

lemma selSums_li_sub {c : ℚ} {l : List (ℚ × ℚ)} (hc : ∀ p ∈ l, c ≤ p.2)
    {q : ℚ × ℚ} (hq : q ∈ selSums l) :
    q.2 - c * q.1 ≤ capLi l - c * capFlow l := by
  induction l generalizing q with
  | nil => rw [selSums_nil] at hq; simp [hq, capLi_nil, capFlow_nil]
  | cons p l ih =>
      obtain ⟨x, r, hx0, hxc, hr, rfl⟩ := selSums_cons.mp hq
      have h1 : r.2 - c * r.1 ≤ capLi l - c * capFlow l :=
        ih (fun q hq => hc q (List.mem_cons_of_mem _ hq)) hr
      have h2 : c ≤ p.2 := hc p (List.mem_cons_self _ _)
      have h3 : x * (p.2 - c) ≤ p.1 * (p.2 - c) :=
        mul_le_mul_of_nonneg_right hxc (by linarith)
      rw [capLi_cons, capFlow_cons]
      simp only []
      nlinarith

lemma selSums_append {A B : List (ℚ × ℚ)} {q : ℚ × ℚ} :
    q ∈ selSums (A ++ B) ↔
      ∃ a b, a ∈ selSums A ∧ b ∈ selSums B ∧ q = (a.1 + b.1, a.2 + b.2) := by
  induction A generalizing q with
  | nil =>
      simp only [List.nil_append]
      constructor
      · intro hq; exact ⟨(0, 0), q, selSums_nil.mpr rfl, hq, by simp⟩
      · rintro ⟨a, b, ha, hb, rfl⟩
        rw [selSums_nil] at ha
        subst ha
        simpa using hb
  | cons p A ih =>
      constructor
      · intro hq
        obtain ⟨x, r, hx0, hxc, hr, rfl⟩ := selSums_cons.mp hq
        obtain ⟨a, b, ha, hb, rfl⟩ := ih.mp hr
        refine ⟨(a.1 + x, a.2 + x * p.2), b,
          selSums_cons.mpr ⟨x, a, hx0, hxc, ha, rfl⟩, hb, ?_⟩
        simp only [Prod.mk.injEq]
        constructor <;> ring
      · rintro ⟨a, b, ha, hb, rfl⟩
        obtain ⟨x, r, hx0, hxc, hr, rfl⟩ := selSums_cons.mp ha
        refine selSums_cons.mpr ⟨x, (r.1 + b.1, r.2 + b.2), hx0, hxc,
          ih.mpr ⟨r, b, hr, hb, rfl⟩, ?_⟩
        simp only [Prod.mk.injEq]
        constructor <;> ring

lemma selSums_perm {l l' : List (ℚ × ℚ)} (h : l.Perm l') :
    selSums l = selSums l' := by
  induction h with
  | nil => rfl
  | cons p h ih =>
      ext q
      rw [selSums_cons, selSums_cons, ih]
  | swap p p' l =>
      ext q
      constructor
      · intro hq
        obtain ⟨x, r, hx0, hxc, hr, rfl⟩ := selSums_cons.mp hq
        obtain ⟨y, r', hy0, hyc, hr', rfl⟩ := selSums_cons.mp hr
        refine selSums_cons.mpr ⟨y, (r'.1 + x, r'.2 + x * p'.2), hy0, hyc,
          selSums_cons.mpr ⟨x, r', hx0, hxc, hr', rfl⟩, ?_⟩
        simp only [Prod.mk.injEq]
        constructor <;> ring
      · intro hq
        obtain ⟨x, r, hx0, hxc, hr, rfl⟩ := selSums_cons.mp hq
        obtain ⟨y, r', hy0, hyc, hr', rfl⟩ := selSums_cons.mp hr
        refine selSums_cons.mpr ⟨y, (r'.1 + x, r'.2 + x * p.2), hy0, hyc,
          selSums_cons.mpr ⟨x, r', hx0, hxc, hr', rfl⟩, ?_⟩
        simp only [Prod.mk.injEq]
        constructor <;> ring
  | trans _ _ ih1 ih2 => rw [ih1, ih2]

lemma flowSet_perm {l l' : List (ℚ × ℚ)} (h : l.Perm l') (T : ℚ) :
    flowSet l T = flowSet l' T := by
  unfold flowSet
  rw [selSums_perm h]

/-- Optimality of the greedy loop.  Run on a suffix `l` after a prefix
`pre` already taken in full, with the whole list sorted by descending
concentration, all flows strictly positive and the running lithium
`capLi pre` at least `T * capFlow pre`, a successful run returns the
greatest attainable total flow meeting the concentration target over the
whole list. -/
lemma accumulate_isGreatest (T : ℚ) (l : List (ℚ × ℚ)) :
    ∀ (pre : List (ℚ × ℚ)) (s : ℚ),
      List.Sorted concGE (pre ++ l) →
      (∀ p ∈ pre ++ l, 0 < p.1) →
      T * capFlow pre ≤ capLi pre →
      accumulate T l (capFlow pre) (capLi pre) = .ok s →
      IsGreatest (flowSet (pre ++ l) T) s := by
  induction l with
  | nil =>
      intro pre s _ hpos hinv hacc
      simp only [accumulate, Except.ok.injEq] at hacc
      subst hacc
      rw [List.append_nil]
      constructor
      · exact ⟨(capFlow pre, capLi pre),
          capSel_mem_selSums (fun p hp => le_of_lt (hpos p (by simpa using hp))),
          rfl, hinv⟩
      · rintro y ⟨q, hq, rfl, _⟩
        exact selSums_flow_le_cap hq
  | cons hd rest ih =>
      intro pre s hsort hpos hinv hacc
      obtain ⟨f, c⟩ := hd
      have hf : 0 < f := by
        simpa using hpos (f, c) (List.mem_append_right _ (List.mem_cons_self _ _))
      have hcf0 : 0 ≤ capFlow pre :=
        capFlow_nonneg fun p hp => le_of_lt (hpos p (List.mem_append_left _ hp))
      have hcf : 0 < capFlow pre + f := by linarith
      simp only [accumulate] at hacc
      rw [if_neg (ne_of_gt hcf)] at hacc
      by_cases hblend : T < (capLi pre + f * c) / (capFlow pre + f)
      · rw [if_pos hblend] at hacc
        have hTle : T * (capFlow pre + f) ≤ capLi pre + f * c :=
          le_of_lt ((lt_div_iff hcf).mp hblend)
        have e1 : capFlow pre + f = capFlow (pre ++ [(f, c)]) := by
          rw [capFlow_append, capFlow_cons, capFlow_nil]; simp
        have e2 : capLi pre + f * c = capLi (pre ++ [(f, c)]) := by
          rw [capLi_append, capLi_cons, capLi_nil]; simp
        rw [e1, e2] at hacc hTle
        have hassoc : (pre ++ [(f, c)]) ++ rest = pre ++ (f, c) :: rest := by
          simp
        have hres := ih (pre ++ [(f, c)]) s (by rw [hassoc]; exact hsort)
          (by rw [hassoc]; exact hpos) hTle hacc
        rwa [hassoc] at hres
      · rw [if_neg hblend] at hacc
        have hble : capLi pre + f * c ≤ T * (capFlow pre + f) := by
          have := le_of_not_lt hblend
          calc capLi pre + f * c
              = (capLi pre + f * c) / (capFlow pre + f) * (capFlow pre + f) := by
                field_simp
            _ ≤ T * (capFlow pre + f) :=
                mul_le_mul_of_nonneg_right this (le_of_lt hcf)
        by_cases hTc : T - c = 0
        · rw [if_pos hTc] at hacc
          exact absurd hacc (by simp)
        · rw [if_neg hTc] at hacc
          have hacc2 : (Except.ok (capFlow pre + (capLi pre - T * capFlow pre) / (T - c)) :
              Except PyErr ℚ) = .ok s := by
            by_cases hz : capFlow pre + (capLi pre - T * capFlow pre) / (T - c) = 0
            · rw [if_pos hz] at hacc
              exact absurd hacc (by simp)
            · rwa [if_neg hz] at hacc
          simp only [Except.ok.injEq] at hacc2
          have hD : 0 ≤ capLi pre - T * capFlow pre := by linarith
          have hcT : c < T := by
            have hle : c ≤ T := by nlinarith
            rcases lt_or_eq_of_le hle with h | h
            · exact h
            · exact absurd (by rw [h]; ring) hTc
          have hTcpos : 0 < T - c := by linarith
          set ff : ℚ := (capLi pre - T * capFlow pre) / (T - c) with hff_def
          have hffD : ff * (T - c) = capLi pre - T * capFlow pre :=
            div_mul_cancel₀ _ hTc
          have hff0 : 0 ≤ ff := div_nonneg hD (le_of_lt hTcpos)
          have hfff : ff ≤ f := by
            rw [hff_def, div_le_iff hTcpos]
            nlinarith
          subst hacc2
          constructor
          · refine ⟨(capFlow pre + ff, capLi pre + ff * c), ?_, rfl, ?_⟩
            · apply selSums_append.mpr
              refine ⟨(capFlow pre, capLi pre), (ff, ff * c),
                capSel_mem_selSums
                  (fun p hp => le_of_lt (hpos p (List.mem_append_left _ hp))), ?_, ?_⟩
              · exact selSums_cons.mpr ⟨ff, (0, 0), hff0, hfff,
                  zero_mem_selSums (fun p hp => le_of_lt
                    (hpos p (List.mem_append_right _ (List.mem_cons_of_mem _ hp)))),
                  by simp only [Prod.mk.injEq]; constructor <;> ring⟩
              · rfl
            · show T * (capFlow pre + ff) ≤ capLi pre + ff * c
              linarith [hffD]
          · rintro y ⟨q, hq, hqy, hfeas⟩
            obtain ⟨a, b, ha, hb, rfl⟩ := selSums_append.mp hq
            obtain ⟨x, r, hx0, hxf, hr, rfl⟩ := selSums_cons.mp hb
            have hpre_ge : ∀ p ∈ pre, c ≤ p.2 := by
              intro p hp
              exact (List.pairwise_append.mp hsort).2.2 p hp (f, c)
                (List.mem_cons_self _ _)
            have hrest_le : ∀ p ∈ rest, p.2 ≤ c := by
              intro p hp
              exact (List.pairwise_cons.mp ((List.pairwise_append.mp hsort).2.1)).1 p hp
            have hA : a.2 - c * a.1 ≤ capLi pre - c * capFlow pre :=
              selSums_li_sub hpre_ge ha
            have hR : r.2 ≤ c * r.1 := selSums_li_le hrest_le hr
            have hqy' : a.1 + (r.1 + x) = y := by simpa using hqy
            have hfeas' : T * y ≤ a.2 + (r.2 + x * c) := by simpa using hfeas
            subst hqy'
            have key : (T - c) * (a.1 + (r.1 + x)) ≤ (T - c) * (capFlow pre + ff) := by
              linarith [hfeas', hA, hR, hffD]
            exact le_of_mul_le_mul_left key hTcpos

/-- If the greedy loop of `max_theoretical_recovery_flow` returns
successfully on a model with strictly positive weekly flows, the returned
accumulator (before the final `(1 - alphaW)` scaling) is the greatest
attainable total flow meeting the adjusted concentration target. -/
lemma greedy_returns_greatest (m : GModel) (tu : String) (dlc : ℚ) (s : ℚ)
    (hpos : ∀ p ∈ pairsOf m, 0 < p.1)
    (hacc : accumulate (dlc * (1 - m.p_alphaW tu)) (sortedPairsOf m) 0 0 = .ok s) :
    IsGreatest (flowSet (pairsOf m) (dlc * (1 - m.p_alphaW tu))) s := by
  have hperm : (sortedPairsOf m).Perm (pairsOf m) := List.perm_insertionSort _ _
  have hsorted : List.Sorted concGE (sortedPairsOf m) :=
    List.sorted_insertionSort _ _
  have hpos' : ∀ p ∈ sortedPairsOf m, 0 < p.1 := fun p hp =>
    hpos p (hperm.mem_iff.mp hp)
  have hres := accumulate_isGreatest (dlc * (1 - m.p_alphaW tu)) (sortedPairsOf m)
    [] s (by simpa using hsorted) (by simpa using hpos')
    (by rw [capFlow_nil, capLi_nil]; simp) (by rw [capFlow_nil, capLi_nil]; exact hacc)
  rw [List.nil_append, flowSet_perm hperm] at hres
  exact hres

/-! ### The staged-solve orchestration

`max_recovery_with_infrastructure` and `cost_optimal` (source lines
113-246) build one model with `build_qcp_br`, toggle constraint blocks and
fixed variables with `obj_fix`, and call the external solver twice.
`build_qcp_br` and `obj_fix` live elsewhere in the repository and are
modelled from the spec; the solver is external and is modelled as an
oracle giving the termination status of each solve. -/

/-- The constraint blocks of the `build_qcp_br` model that the staged
functions toggle: the ten concentration blocks (source lines 125-136) and
the eight flow / inventory blocks (source lines 137-146).  The indexed
`Dflow` block additionally carries per-index active flags. -/
inductive Con
  | MSconc | Pconc | Cconc | Sconc | Wconc | TINconc | NTTWconc | NTCWconc
  | NTSrcconc | minconccon
  | Cflow | noinvflow | Sinv | Dflow | Wflow | TINflow | NTTWflow | NTCWflow
deriving DecidableEq, Repr

/-- Modelled from the spec: the observable state of the Pyomo model built
by `build_qcp_br` (which is outside this module).  It records the model
identity (models are passed by reference), the active flag of the three
objectives and of each constraint block, the per-index active flags of the
indexed `Dflow` block, and the names of the fixed variable components. -/
structure MState where
  mid : Nat
  objA : Bool
  br_objA : Bool
  treatment_only_objA : Bool
  msconcA : Bool
  pconcA : Bool
  cconcA : Bool
  sconcA : Bool
  wconcA : Bool
  tinconcA : Bool
  nttwconcA : Bool
  ntcwconcA : Bool
  ntsrcconcA : Bool
  minconcconA : Bool
  cflowA : Bool
  noinvflowA : Bool
  sinvA : Bool
  wflowA : Bool
  tinflowA : Bool
  nttwflowA : Bool
  ntcwflowA : Bool
  dflowA : List ((String × String) × Bool)
  fixedVars : List String
deriving DecidableEq, Repr

/-- The active flag of a constraint block; for the indexed `Dflow` block,
the block counts as active when every member is active. -/
def MState.active (m : MState) : Con → Bool
  | .MSconc => m.msconcA
  | .Pconc => m.pconcA
  | .Cconc => m.cconcA
  | .Sconc => m.sconcA
  | .Wconc => m.wconcA
  | .TINconc => m.tinconcA
  | .NTTWconc => m.nttwconcA
  | .NTCWconc => m.ntcwconcA
  | .NTSrcconc => m.ntsrcconcA
  | .minconccon => m.minconcconA
  | .Cflow => m.cflowA
  | .noinvflow => m.noinvflowA
  | .Sinv => m.sinvA
  | .Dflow => m.dflowA.all (fun p => p.2)
  | .Wflow => m.wflowA
  | .TINflow => m.tinflowA
  | .NTTWflow => m.nttwflowA
  | .NTCWflow => m.ntcwflowA

/-- Set the active flag of a whole constraint block; on the indexed
`Dflow` block this sets the flag of every member, which is the Pyomo
semantics of activating or deactivating an indexed constraint. -/
def setActive (m : MState) (c : Con) (b : Bool) : MState :=
  match c with
  | .MSconc => { m with msconcA := b }
  | .Pconc => { m with pconcA := b }
  | .Cconc => { m with cconcA := b }
  | .Sconc => { m with sconcA := b }
  | .Wconc => { m with wconcA := b }
  | .TINconc => { m with tinconcA := b }
  | .NTTWconc => { m with nttwconcA := b }
  | .NTCWconc => { m with ntcwconcA := b }
  | .NTSrcconc => { m with ntsrcconcA := b }
  | .minconccon => { m with minconcconA := b }
  | .Cflow => { m with cflowA := b }
  | .noinvflow => { m with noinvflowA := b }
  | .Sinv => { m with sinvA := b }
  | .Dflow => { m with dflowA := m.dflowA.map (fun p => (p.1, b)) }
  | .Wflow => { m with wflowA := b }
  | .TINflow => { m with tinflowA := b }
  | .NTTWflow => { m with nttwflowA := b }
  | .NTCWflow => { m with ntcwflowA := b }

/-- Modelled from the spec: `obj_fix` (from
`pareto.utilities.cm_utils.gen_utils`) is not under `src/`.  Per the spec
and the call-site comments, it fixes exactly the variables whose component
names are listed (unfixing any previously fixed others), activates every
constraint block in `activate`, deactivates every block in `deactivate`,
and returns the very model object it was given (same identity). -/
def obj_fix (m : MState) (vars : List String)
    (activate deactivate : List Con) : MState :=
  let m1 := activate.foldl (fun acc c => setActive acc c true) m
  let m2 := deactivate.foldl (fun acc c => setActive acc c false) m1
  { m2 with fixedVars := vars }

/-- The input data loaded for the staged functions.  The only part that
the orchestration logic observes is the index set that the `Dflow` block
of the built model will have. -/
structure Data where
  dflowIdx : List (String × String)
deriving DecidableEq, Repr

/-- Modelled from the spec: `build_qcp_br` (from
`pareto.other_models.CM_module.models.qcp_br`) is not under `src/`.  It
builds a fresh algebraic model from the data: every objective and every
constraint block starts active (the Pyomo default for newly constructed
components) and no variable is fixed.  The model identity is supplied at
the call site. -/
def build_qcp_br (d : Data) (mid : Nat) : MState where
  mid := mid
  objA := true
  br_objA := true
  treatment_only_objA := true
  msconcA := true
  pconcA := true
  cconcA := true
  sconcA := true
  wconcA := true
  tinconcA := true
  nttwconcA := true
  ntcwconcA := true
  ntsrcconcA := true
  minconcconA := true
  cflowA := true
  noinvflowA := true
  sinvA := true
  wflowA := true
  tinflowA := true
  nttwflowA := true
  ntcwflowA := true
  dflowA := d.dflowIdx.map (fun k => (k, true))
  fixedVars := []

/-- Source lines 125-136 and 197-208: the list of constraint blocks
involving concentrations. -/
def conclist : List Con :=
  [.MSconc, .Pconc, .Cconc, .Sconc, .Wconc, .TINconc, .NTTWconc, .NTCWconc,
   .NTSrcconc, .minconccon]

/-- Source lines 137-146 and 209-218: the list of flow / inventory
constraint blocks. -/
def flowlist : List Con :=
  [.Cflow, .noinvflow, .Sinv, .Dflow, .Wflow, .TINflow, .NTTWflow, .NTCWflow]

/-- Observable events of a staged run: the construction of a model (with
its identity) and each call to the external solver, recorded together with
the model state at call time and whether the solver reported an optimal
termination status. -/
inductive Ev
  | build (mid : Nat)
  | solveCall (snapshot : MState) (optimal : Bool)
deriving DecidableEq, Repr

/-- The outcome of a staged function: the event trace, and either the
returned model or the abort raised by `pyo.assert_optimal_termination`. -/
structure Run where
  events : List Ev
  result : Except PyErr MState
deriving Repr

/-- Source lines 115-150 of `max_recovery_with_infrastructure`: the model
state at the first solve.  The model is built (line 115), `obj` and
`br_obj` are deactivated and `treatment_only_obj` activated (lines
120-122), and `obj_fix` fixes `v_C`, activates the flow blocks and
deactivates the concentration blocks (line 150). -/
def mrwiStage1Model (data : Data) : MState :=
  obj_fix { build_qcp_br data 0 with
      objA := false, br_objA := false, treatment_only_objA := true }
    ["v_C"] flowlist conclist

/-- Source lines 167-173 of `max_recovery_with_infrastructure`: the model
state at the second solve.  `obj_fix` unfixes everything and reactivates
all blocks (line 167), then `TINflow` is deactivated (line 170) and every
`Dflow` member whose first index is `"K1_TW"` or `"K1_CW"` is deactivated
(lines 171-173). -/
def mrwiStage2Model (data : Data) : MState :=
  let model := obj_fix (mrwiStage1Model data) [] (conclist ++ flowlist) []
  let model := setActive model .TINflow false
  let dflow := model.dflowA.map
    (fun p => if p.1.1 = "K1_TW" || p.1.1 = "K1_CW" then (p.1, false) else p)
  { model with dflowA := dflow }

/-- Source lines 113-185, `max_recovery_with_infrastructure(data, tee)`:
build the model, toggle into the first stage, solve, abort unless the
termination status is optimal; toggle into the second stage, solve, abort
unless optimal, and return the model.  `res1` and `res2` are the
termination statuses the external solver reports for the two solves. -/
def max_recovery_with_infrastructure (data : Data) (res1 res2 : Bool) : Run :=
  if res1 = false then
    { events := [.build 0, .solveCall (mrwiStage1Model data) false],
      result := .error .nonOptimalTermination }
  else if res2 = false then
    { events := [.build 0, .solveCall (mrwiStage1Model data) true,
        .solveCall (mrwiStage2Model data) false],
      result := .error .nonOptimalTermination }
  else
    { events := [.build 0, .solveCall (mrwiStage1Model data) true,
        .solveCall (mrwiStage2Model data) true],
      result := .ok (mrwiStage2Model data) }

/-- Source lines 190-222 of `cost_optimal`: the model state at the first
solve.  The model is built (line 190) and `obj_fix` fixes `v_C`, activates
the flow blocks and deactivates the concentration blocks (line 222). -/
def coStage1Model (data : Data) : MState :=
  obj_fix (build_qcp_br data 0) ["v_C"] flowlist conclist

/-- Source line 239 of `cost_optimal`: the model state at the second
solve, with everything unfixed and reactivated by `obj_fix`. -/
def coStage2Model (data : Data) : MState :=
  obj_fix (coStage1Model data) [] (conclist ++ flowlist) []

/-- Source lines 188-247, `cost_optimal(data, tee)`: build the model,
toggle into the first stage, solve, abort unless the termination status is
optimal; toggle into the second stage, solve, abort unless optimal, and
return the model.  `res1` and `res2` are the termination statuses the
external solver reports for the two solves. -/
def cost_optimal (data : Data) (res1 res2 : Bool) : Run :=
  if res1 = false then
    { events := [.build 0, .solveCall (coStage1Model data) false],
      result := .error .nonOptimalTermination }
  else if res2 = false then
    { events := [.build 0, .solveCall (coStage1Model data) true,
        .solveCall (coStage2Model data) false],
      result := .error .nonOptimalTermination }
  else
    { events := [.build 0, .solveCall (coStage1Model data) true,
        .solveCall (coStage2Model data) true],
      result := .ok (coStage2Model data) }

/-- The termination statuses of the executed solver calls, in order. -/
def solveFlags (r : Run) : List Bool :=
  r.events.filterMap fun e => match e with
    | .solveCall _ b => some b
    | _ => none

/-- The model snapshots observed by the executed solver calls, in order. -/
def solveSnaps (r : Run) : List MState :=
  r.events.filterMap fun e => match e with
    | .solveCall s _ => some s
    | _ => none

/-- The identities of the models built during the run, in order. -/
def buildIds (r : Run) : List Nat :=
  r.events.filterMap fun e => match e with
    | .build mid => some mid
    | _ => none

/-- Every one of the ten concentration constraint blocks is active. -/
def allConcActive (m : MState) : Prop := ∀ c ∈ conclist, m.active c = true

/-- Every one of the ten concentration constraint blocks is inactive. -/
def allConcInactive (m : MState) : Prop := ∀ c ∈ conclist, m.active c = false

/-- Every flow / inventory block, including every `Dflow` member, is
active. -/
def allFlowActive (m : MState) : Prop := ∀ c ∈ flowlist, m.active c = true

lemma setActive_mid (m : MState) (c : Con) (b : Bool) :
    (setActive m c b).mid = m.mid := by
  cases c <;> rfl

lemma foldl_setActive_mid (l : List Con) (b : Bool) (m : MState) :
    (l.foldl (fun acc c => setActive acc c b) m).mid = m.mid := by
  induction l generalizing m with
  | nil => rfl
  | cons c l ih => rw [List.foldl_cons, ih, setActive_mid]

lemma obj_fix_mid (m : MState) (vars : List String) (act deact : List Con) :
    (obj_fix m vars act deact).mid = m.mid := by
  simp only [obj_fix]
  rw [foldl_setActive_mid, foldl_setActive_mid]

lemma coStage2Model_dflowA (d : Data) :
    (coStage2Model d).dflowA = d.dflowIdx.map (fun k => (k, true)) := by
  simp [coStage2Model, coStage1Model, obj_fix, setActive, conclist, flowlist,
    build_qcp_br, List.map_map, Function.comp]

lemma mrwiStage2Model_dflowA (d : Data) :
    (mrwiStage2Model d).dflowA = d.dflowIdx.map
      (fun k => if k.1 = "K1_TW" || k.1 = "K1_CW" then (k, false) else (k, true)) := by
  have hpre : (obj_fix (mrwiStage1Model d) [] (conclist ++ flowlist) []).dflowA =
      d.dflowIdx.map (fun k => (k, true)) := by
    simp [mrwiStage1Model, obj_fix, setActive, conclist, flowlist, build_qcp_br,
      List.map_map, Function.comp]
  show ((setActive (obj_fix (mrwiStage1Model d) [] (conclist ++ flowlist) [])
      Con.TINflow false).dflowA.map
      (fun p => if p.1.1 = "K1_TW" || p.1.1 = "K1_CW" then (p.1, false) else p)) = _
  rw [show (setActive (obj_fix (mrwiStage1Model d) [] (conclist ++ flowlist) [])
      Con.TINflow false).dflowA =
      (obj_fix (mrwiStage1Model d) [] (conclist ++ flowlist) []).dflowA from rfl]
  rw [hpre, List.map_map]
  apply List.map_congr_left
  intro k _
  by_cases hk : k.1 = "K1_TW" ∨ k.1 = "K1_CW"
  · rcases hk with hk | hk <;> simp [Function.comp, hk]
  · push_neg at hk
    simp [Function.comp, hk.1, hk.2]

/-! ### The claims -/

/-- C1: for every input data object, both `max_recovery_with_infrastructure`
and `cost_optimal` execute the staged sequence: build the model, deactivate
the ten concentration constraint blocks while fixing the concentration
variables `v_C`, solve, reactivate that subset and unfix the variables,
then solve again with a different set of fixed variables, each solve being
a call to the external solver recorded in the trace. -/
theorem claim_C1 (d : Data) :
    (∃ s1 s2,
      (max_recovery_with_infrastructure d true true).events =
        [.build 0, .solveCall s1 true, .solveCall s2 true] ∧
      (max_recovery_with_infrastructure d true true).result = .ok s2 ∧
      allConcInactive s1 ∧ s1.fixedVars = ["v_C"] ∧
      allConcActive s2 ∧ s2.fixedVars = [] ∧ s2.fixedVars ≠ s1.fixedVars) ∧
    (∃ s1 s2,
      (cost_optimal d true true).events =
        [.build 0, .solveCall s1 true, .solveCall s2 true] ∧
      (cost_optimal d true true).result = .ok s2 ∧
      allConcInactive s1 ∧ s1.fixedVars = ["v_C"] ∧
      allConcActive s2 ∧ s2.fixedVars = [] ∧ s2.fixedVars ≠ s1.fixedVars) := by
  constructor
  · refine ⟨mrwiStage1Model d, mrwiStage2Model d, rfl, rfl, ?_, rfl, ?_, rfl, ?_⟩
    · intro c hc
      fin_cases hc <;> rfl
    · intro c hc
      fin_cases hc <;> simp [mrwiStage2Model, mrwiStage1Model, obj_fix, setActive,
        conclist, flowlist, build_qcp_br, MState.active]
    · show ([] : List String) ≠ ["v_C"]
      simp
  · refine ⟨coStage1Model d, coStage2Model d, rfl, rfl, ?_, rfl, ?_, rfl, ?_⟩
    · intro c hc
      fin_cases hc <;> rfl
    · intro c hc
      fin_cases hc <;> simp [coStage2Model, coStage1Model, obj_fix, setActive,
        conclist, flowlist, build_qcp_br, MState.active]
    · show ([] : List String) ≠ ["v_C"]
      simp

/-- C2: in `max_theoretical_recovery_flow_opt`,
`max_recovery_with_infrastructure` and `cost_optimal`, a solve whose
termination status is not optimal makes the function abort immediately
after that solve (the trace records no further solve, and the result is
the abort), and when every solve is optimal no abort occurs. -/
theorem claim_C2 :
    (∀ (d : Data) (res1 res2 : Bool),
      solveFlags (max_recovery_with_infrastructure d res1 res2) =
        (if res1 then [true, res2] else [false]) ∧
      (max_recovery_with_infrastructure d res1 res2).result.isOk = (res1 && res2) ∧
      ((res1 && res2) = false →
        (max_recovery_with_infrastructure d res1 res2).result =
          .error .nonOptimalTermination)) ∧
    (∀ (d : Data) (res1 res2 : Bool),
      solveFlags (cost_optimal d res1 res2) =
        (if res1 then [true, res2] else [false]) ∧
      (cost_optimal d res1 res2).result.isOk = (res1 && res2) ∧
      ((res1 && res2) = false →
        (cost_optimal d res1 res2).result = .error .nonOptimalTermination)) ∧
    (∀ (m : GModel) (tu : String) (dlc : ℚ),
      (999 : ℚ)/1000 < m.p_alpha tu "Li" →
      max_theoretical_recovery_flow_opt m tu dlc none =
        .error .nonOptimalTermination ∧
      ∀ s, max_theoretical_recovery_flow_opt m tu dlc (some s) =
        .ok (s * (1 - m.p_alphaW tu))) := by
  refine ⟨?_, ?_, ?_⟩
  · intro d res1 res2
    cases res1 <;> cases res2 <;>
      exact ⟨rfl, rfl, fun h => by first | rfl | simp at h⟩
  · intro d res1 res2
    cases res1 <;> cases res2 <;>
      exact ⟨rfl, rfl, fun h => by first | rfl | simp at h⟩
  · intro m tu dlc hα
    exact ⟨by simp [max_theoretical_recovery_flow_opt, hα],
      fun s => by simp [max_theoretical_recovery_flow_opt, hα]⟩

/-- Witness for C2: at a concrete model satisfying the efficiency
precondition, a non-optimal solve makes `max_theoretical_recovery_flow_opt`
abort with the non-optimal-termination error. -/
theorem claim_C2_witness :
    max_theoretical_recovery_flow_opt
      { p_alpha := fun _ _ => 1, p_alphaW := fun _ => 0,
        p_FGen := [], p_CGen := fun _ _ _ => 0 } "TU" 5 none =
      .error .nonOptimalTermination :=
  (claim_C2.2.2 _ "TU" 5 (by norm_num)).1

/-- C5: in `cost_optimal` the toggling is fully reversed before the second
solve: at the second solve and in the returned model, all ten concentration
blocks and all eight flow blocks (every `Dflow` member included) are
active and no variable is fixed. -/
theorem claim_C5 (d : Data) :
    ∃ s1 s2,
      (cost_optimal d true true).events =
        [.build 0, .solveCall s1 true, .solveCall s2 true] ∧
      (cost_optimal d true true).result = .ok s2 ∧
      allConcActive s2 ∧ allFlowActive s2 ∧
      (∀ p ∈ s2.dflowA, p.2 = true) ∧ s2.fixedVars = [] := by
  refine ⟨coStage1Model d, coStage2Model d, rfl, rfl, ?_, ?_, ?_, rfl⟩
  · intro c hc
    fin_cases hc <;> simp [coStage2Model, coStage1Model, obj_fix, setActive,
      conclist, flowlist, build_qcp_br, MState.active]
  · intro c hc
    fin_cases hc <;>
      simp [coStage2Model, coStage1Model, obj_fix, setActive, conclist,
        flowlist, build_qcp_br, MState.active, List.all_eq_true]
  · intro p hp
    rw [coStage2Model_dflowA] at hp
    obtain ⟨k, _, rfl⟩ := List.mem_map.mp hp
    rfl

/-- C6: in `max_recovery_with_infrastructure`, before the second solve the
first-stage toggling is reversed (concentration blocks active, variables
unfixed), then the `TINflow` block is deactivated and every `Dflow` member
whose first index is `"K1_TW"` or `"K1_CW"` is deactivated; the other flow
blocks and the other `Dflow` members stay active, and these deactivations
are still in effect in the returned model. -/
theorem claim_C6 (d : Data) :
    ∃ s1 s2,
      (max_recovery_with_infrastructure d true true).events =
        [.build 0, .solveCall s1 true, .solveCall s2 true] ∧
      (max_recovery_with_infrastructure d true true).result = .ok s2 ∧
      allConcActive s2 ∧ s2.fixedVars = [] ∧
      s2.tinflowA = false ∧
      (∀ p ∈ s2.dflowA, (p.1.1 = "K1_TW" ∨ p.1.1 = "K1_CW") → p.2 = false) ∧
      (∀ p ∈ s2.dflowA, p.1.1 ≠ "K1_TW" → p.1.1 ≠ "K1_CW" → p.2 = true) ∧
      (∀ c ∈ flowlist, c ≠ .Dflow → c ≠ .TINflow → s2.active c = true) := by
  refine ⟨mrwiStage1Model d, mrwiStage2Model d, rfl, rfl, ?_, rfl, rfl, ?_, ?_, ?_⟩
  · intro c hc
    fin_cases hc <;> simp [mrwiStage2Model, mrwiStage1Model, obj_fix, setActive,
      conclist, flowlist, build_qcp_br, MState.active]
  · intro p hp hk
    rw [mrwiStage2Model_dflowA] at hp
    obtain ⟨k, -, rfl⟩ := List.mem_map.mp hp
    by_cases h1 : k.1 = "K1_TW"
    · simp [h1]
    · by_cases h2 : k.1 = "K1_CW"
      · simp [h2]
      · simp [h1, h2] at hk
  · intro p hp hk1 hk2
    rw [mrwiStage2Model_dflowA] at hp
    obtain ⟨k, -, rfl⟩ := List.mem_map.mp hp
    by_cases h1 : k.1 = "K1_TW"
    · simp [h1] at hk1
    · by_cases h2 : k.1 = "K1_CW"
      · simp [h1, h2] at hk2
      · simp [h1, h2]
  · intro c hc
    fin_cases hc <;> simp_all <;>
      simp [mrwiStage2Model, mrwiStage1Model, obj_fix, setActive,
        conclist, flowlist, build_qcp_br, MState.active]

/-- C7: both staged functions create exactly one model (identity 0, built
by `build_qcp_br` from the input data), every solve snapshot carries that
same model identity, the returned model (when the run succeeds) is that
same model, and `obj_fix` returns the model object it was given. -/
theorem claim_C7 (d : Data) (res1 res2 : Bool) :
    buildIds (max_recovery_with_infrastructure d res1 res2) = [0] ∧
    buildIds (cost_optimal d res1 res2) = [0] ∧
    (solveSnaps (max_recovery_with_infrastructure d res1 res2)).map MState.mid =
      (if res1 = false then [0] else [0, 0]) ∧
    (solveSnaps (cost_optimal d res1 res2)).map MState.mid =
      (if res1 = false then [0] else [0, 0]) ∧
    (max_recovery_with_infrastructure d res1 res2).result.map MState.mid =
      (if res1 && res2 then .ok 0 else .error .nonOptimalTermination) ∧
    (cost_optimal d res1 res2).result.map MState.mid =
      (if res1 && res2 then .ok 0 else .error .nonOptimalTermination) ∧
    (∀ (m : MState) (vars : List String) (act deact : List Con),
      (obj_fix m vars act deact).mid = m.mid) := by
  have h1 : (mrwiStage1Model d).mid = 0 := by
    rw [mrwiStage1Model, obj_fix_mid]; rfl
  have h2 : (mrwiStage2Model d).mid = 0 := by
    rw [mrwiStage2Model]
    show (setActive (obj_fix (mrwiStage1Model d) [] (conclist ++ flowlist) [])
      Con.TINflow false).mid = 0
    rw [setActive_mid, obj_fix_mid, h1]
  have h3 : (coStage1Model d).mid = 0 := by
    rw [coStage1Model, obj_fix_mid]; rfl
  have h4 : (coStage2Model d).mid = 0 := by
    rw [coStage2Model, obj_fix_mid, h3]
  refine ⟨?_, ?_, ?_, ?_, ?_, ?_,
    fun m vars act deact => obj_fix_mid m vars act deact⟩ <;>
    cases res1 <;> cases res2 <;>
    simp [max_recovery_with_infrastructure, cost_optimal, buildIds, solveSnaps,
      solveFlags, h1, h2, h3, h4, List.filterMap, Except.map]

lemma max_flow_ok_elim {m : GModel} {tu : String} {dlc v : ℚ}
    (hα : (999 : ℚ)/1000 < m.p_alpha tu "Li")
    (hret : max_theoretical_recovery_flow m tu dlc = .ok v) :
    ∃ s, accumulate (dlc * (1 - m.p_alphaW tu)) (sortedPairsOf m) 0 0 = .ok s ∧
      v = s * (1 - m.p_alphaW tu) := by
  simp only [max_theoretical_recovery_flow] at hret
  rw [if_pos hα] at hret
  cases hacc : accumulate (dlc * (1 - m.p_alphaW tu)) (sortedPairsOf m) 0 0 with
  | error e => rw [hacc] at hret; simp [Except.map] at hret
  | ok s =>
      rw [hacc] at hret
      simp only [Except.map, Except.ok.injEq] at hret
      exact ⟨s, rfl, hret.symm⟩

/-- A concrete model meeting every hypothesis of C3 as stated (strictly
positive generated flows, efficiency above 0.999) whose highest
concentration exactly equals the adjusted target. -/
def boundaryModel : GModel where
  p_alpha := fun _ _ => 1
  p_alphaW := fun _ => 0
  p_FGen := [(("S1", "T1"), 1)]
  p_CGen := fun _ _ _ => 5

/-- Counterexample to C3 as stated: on `boundaryModel` with desired
concentration 5 all hypotheses of the claim hold, yet the function raises
`ZeroDivisionError` and returns no value at all. -/
theorem claim_C3_counterexample :
    (999 : ℚ)/1000 < boundaryModel.p_alpha "TU" "Li" ∧
    (∀ p ∈ pairsOf boundaryModel, 0 < p.1) ∧
    max_theoretical_recovery_flow boundaryModel "TU" 5 =
      .error .zeroDivisionError ∧
    ∀ v : ℚ, max_theoretical_recovery_flow boundaryModel "TU" 5 ≠ .ok v := by
  have heval : max_theoretical_recovery_flow boundaryModel "TU" 5 =
      .error .zeroDivisionError := by
    simp [max_theoretical_recovery_flow, sortedPairsOf, pairsOf, boundaryModel,
      accumulate, List.insertionSort, List.orderedInsert, concGE, Except.map]
    norm_num
  refine ⟨by norm_num [boundaryModel], ?_, heval, ?_⟩
  · intro p hp
    simp only [pairsOf, boundaryModel, List.map_cons, List.map_nil,
      List.mem_singleton] at hp
    subst hp
    norm_num
  · intro v h
    rw [heval] at h
    exact Except.noConfusion h

/-- C3 (amended): for every model with strictly positive generated weekly
flows satisfying the asserted efficiency precondition on which the
function returns a value rather than raising `ZeroDivisionError`, the
returned value is `(1 - alphaW)` times the greatest total flow attainable
by selecting, possibly fractionally, from the generated weekly flows (each
capped at `7 * p_FGen`), subject to the total lithium being at least
`desired_li_conc * (1 - alphaW)` times the total flow. -/
theorem claim_C3 (m : GModel) (tu : String) (dlc : ℚ) (v : ℚ)
    (hα : (999 : ℚ)/1000 < m.p_alpha tu "Li")
    (hpos : ∀ p ∈ pairsOf m, 0 < p.1)
    (hret : max_theoretical_recovery_flow m tu dlc = .ok v) :
    ∃ s, IsGreatest (flowSet (pairsOf m) (dlc * (1 - m.p_alphaW tu))) s ∧
      v = s * (1 - m.p_alphaW tu) := by
  obtain ⟨s, hacc, hv⟩ := max_flow_ok_elim hα hret
  exact ⟨s, greedy_returns_greatest m tu dlc s hpos hacc, hv⟩

/-- A concrete model for the C3 witness: one source, weekly flow 7 at
concentration 10. -/
def c3WitnessModel : GModel where
  p_alpha := fun _ _ => 1
  p_alphaW := fun _ => 0
  p_FGen := [(("S1", "T1"), 1)]
  p_CGen := fun _ _ _ => 10

/-- Witness for C3: on `c3WitnessModel` with target 5 the function returns
7, which is the greatest attainable flow. -/
theorem claim_C3_witness :
    ∃ s, IsGreatest
        (flowSet (pairsOf c3WitnessModel) (5 * (1 - c3WitnessModel.p_alphaW "TU"))) s ∧
      (7 : ℚ) = s * (1 - c3WitnessModel.p_alphaW "TU") :=
  claim_C3 c3WitnessModel "TU" 5 7
    (by norm_num [c3WitnessModel])
    (by
      intro p hp
      simp only [pairsOf, c3WitnessModel, List.map_cons, List.map_nil,
        List.mem_singleton] at hp
      subst hp
      norm_num)
    (by
      simp [max_theoretical_recovery_flow, sortedPairsOf, pairsOf, c3WitnessModel,
        accumulate, List.insertionSort, List.orderedInsert, concGE, Except.map]
      norm_num)

/-- The concrete example for the greedy algorithm: two sources with weekly
flows 70 at concentrations 6 and 2, efficiency 1, water recovery 0. -/
def exampleModel : GModel where
  p_alpha := fun _ _ => 1
  p_alphaW := fun _ => 0
  p_FGen := [(("S1", "T1"), 10), (("S2", "T1"), 10)]
  p_CGen := fun s _ _ => if s = "S1" then 6 else 2

/-- C4: the accumulation list is the generated pair list sorted by
concentration in descending order, and on the concrete example with
target 5 the function takes the whole 70-barrel flow at concentration 6
(blend 6 stays above 5) and then exactly the fractional 70/3 barrels at
concentration 2 that bring the blend to the target, returning
70 + 70/3 = 280/3. -/
theorem claim_C4 :
    (∀ m : GModel, List.Sorted concGE (sortedPairsOf m) ∧
      (sortedPairsOf m).Perm (pairsOf m)) ∧
    max_theoretical_recovery_flow exampleModel "TU" 5 = .ok (280/3) := by
  constructor
  · intro m
    exact ⟨List.sorted_insertionSort _ _, List.perm_insertionSort _ _⟩
  · simp [max_theoretical_recovery_flow, sortedPairsOf, pairsOf, exampleModel,
      accumulate, List.insertionSort, List.orderedInsert, concGE, Except.map]
    norm_num

/-- C8: both `max_theoretical_recovery_flow` and
`max_theoretical_recovery_flow_opt` require as their first action that the
Li efficiency `p_alpha[treatment_unit, "Li"]` exceed 0.999: on every model
violating this they return the `AssertionError`, whatever the flow data
and whatever the solver would have reported, before any solve happens. -/
theorem claim_C8 (m : GModel) (tu : String) (dlc : ℚ)
    (h : ¬ (999 : ℚ)/1000 < m.p_alpha tu "Li") :
    max_theoretical_recovery_flow m tu dlc = .error .assertionError ∧
    ∀ res, max_theoretical_recovery_flow_opt m tu dlc res =
      .error .assertionError := by
  constructor
  · simp [max_theoretical_recovery_flow, h]
  · intro res
    simp [max_theoretical_recovery_flow_opt, h]

/-- Witness for C8: a model with efficiency 1/2 makes both functions raise
the assertion error. -/
theorem claim_C8_witness :
    max_theoretical_recovery_flow
      { p_alpha := fun _ _ => 1/2, p_alphaW := fun _ => 0,
        p_FGen := [(("S1", "T1"), 3)], p_CGen := fun _ _ _ => 9 } "TU" 5 =
      .error .assertionError ∧
    max_theoretical_recovery_flow_opt
      { p_alpha := fun _ _ => 1/2, p_alphaW := fun _ => 0,
        p_FGen := [(("S1", "T1"), 3)], p_CGen := fun _ _ _ => 9 } "TU" 5 none =
      .error .assertionError := by
  have h := claim_C8
    { p_alpha := fun _ _ => 1/2, p_alphaW := fun _ => 0,
      p_FGen := [(("S1", "T1"), 3)], p_CGen := fun _ _ _ => 9 } "TU" 5
    (by norm_num)
  exact ⟨h.1, h.2 none⟩

/-- A concrete model for the zero-division behaviour: Li efficiency 1,
water recovery 0, one source whose generated flow is zero. -/
def zeroFlowModel : GModel where
  p_alpha := fun _ _ => 1
  p_alphaW := fun _ => 0
  p_FGen := [(("S1", "T1"), 0)]
  p_CGen := fun _ _ _ => 3

/-- C9: the divisions in `max_theoretical_recovery_flow` are unguarded:
`zeroFlowModel` satisfies the asserted efficiency precondition, its first
generated flow is zero, and the function raises `ZeroDivisionError`
instead of returning a flow value. -/
theorem claim_C9 :
    (999 : ℚ)/1000 < zeroFlowModel.p_alpha "TU" "Li" ∧
    max_theoretical_recovery_flow zeroFlowModel "TU" 5 =
      .error .zeroDivisionError ∧
    ∀ v : ℚ, max_theoretical_recovery_flow zeroFlowModel "TU" 5 ≠ .ok v := by
  have heval : max_theoretical_recovery_flow zeroFlowModel "TU" 5 =
      .error .zeroDivisionError := by
    simp [max_theoretical_recovery_flow, sortedPairsOf, pairsOf, zeroFlowModel,
      accumulate, List.insertionSort, List.orderedInsert, concGE, Except.map]
    norm_num
  refine ⟨by norm_num [zeroFlowModel], heval, ?_⟩
  intro v h
  rw [heval] at h
  exact Except.noConfusion h

/-- The feasible objective values of the LP built by
`max_theoretical_recovery_flow_opt` (source lines 91-105): total flows
attainable by fractional selection from the weekly generated flows that
meet the concentration constraint, with the `cumulative_F` variable also
respecting its lower bound of 10 (source line 95). -/
def lpSet (m : GModel) (tu : String) (dlc : ℚ) : Set ℚ :=
  {s | s ∈ flowSet (pairsOf m) (dlc * (1 - m.p_alphaW tu)) ∧ 10 ≤ s}

/-- A concrete model meeting the efficiency precondition with one source
of weekly flow 7 at concentration 10. -/
def smallFlowModel : GModel where
  p_alpha := fun _ _ => 1
  p_alphaW := fun _ => 0
  p_FGen := [(("S1", "T1"), 1)]
  p_CGen := fun _ _ _ => 10

/-- Counterexample to C10 as stated: on `smallFlowModel` (efficiency
precondition satisfied, strictly positive flows) the greedy function
returns 7, but the LP of the `_opt` variant is infeasible because of the
lower bound `cumulative_F >= 10`, so it has no optimum and the two
functions cannot return the same value. -/
theorem claim_C10_counterexample :
    (999 : ℚ)/1000 < smallFlowModel.p_alpha "TU" "Li" ∧
    (∀ p ∈ pairsOf smallFlowModel, 0 < p.1) ∧
    max_theoretical_recovery_flow smallFlowModel "TU" 5 = .ok 7 ∧
    lpSet smallFlowModel "TU" 5 = ∅ ∧
    ∀ s, ¬ IsGreatest (lpSet smallFlowModel "TU" 5) s := by
  have hempty : lpSet smallFlowModel "TU" 5 = ∅ := by
    ext s
    simp only [lpSet, Set.mem_setOf_eq, Set.mem_empty_iff_false, iff_false, not_and]
    intro hs
    obtain ⟨q, hq, rfl, _⟩ := hs
    have hle : q.1 ≤ capFlow (pairsOf smallFlowModel) := selSums_flow_le_cap hq
    have hcap : capFlow (pairsOf smallFlowModel) = 7 := by
      norm_num [pairsOf, smallFlowModel, capFlow]
    rw [hcap] at hle
    intro h10
    linarith
  refine ⟨by norm_num [smallFlowModel], ?_, ?_, hempty, ?_⟩
  · intro p hp
    simp only [pairsOf, smallFlowModel, List.map_cons, List.map_nil,
      List.mem_singleton] at hp
    subst hp
    norm_num
  · simp [max_theoretical_recovery_flow, sortedPairsOf, pairsOf, smallFlowModel,
      accumulate, List.insertionSort, List.orderedInsert, concGE, Except.map]
    norm_num
  · intro s hs
    have hmem := hs.1
    rw [hempty] at hmem
    exact hmem

/-- C10 (amended): for every model with strictly positive generated weekly
flows satisfying the asserted efficiency precondition, if
`max_theoretical_recovery_flow` returns a value `v` whose pre-scaling
cumulative flow reaches the LP lower bound of 10 (with the water recovery
fraction below 1 so the scaling is invertible), then the LP of
`max_theoretical_recovery_flow_opt` has an optimum, that optimum is the
greedy cumulative flow, and the `_opt` function run with a solver
reporting that optimum returns the same value `v`. -/
theorem claim_C10 (m : GModel) (tu : String) (dlc : ℚ) (v : ℚ)
    (hα : (999 : ℚ)/1000 < m.p_alpha tu "Li")
    (hpos : ∀ p ∈ pairsOf m, 0 < p.1)
    (hW : m.p_alphaW tu < 1)
    (hret : max_theoretical_recovery_flow m tu dlc = .ok v)
    (h10 : 10 * (1 - m.p_alphaW tu) ≤ v) :
    ∃ s, IsGreatest (lpSet m tu dlc) s ∧
      max_theoretical_recovery_flow_opt m tu dlc (some s) = .ok v := by
  obtain ⟨s, hacc, hv⟩ := max_flow_ok_elim hα hret
  have hgr : IsGreatest (flowSet (pairsOf m) (dlc * (1 - m.p_alphaW tu))) s :=
    greedy_returns_greatest m tu dlc s hpos hacc
  have h1W : 0 < 1 - m.p_alphaW tu := by linarith
  have hs10 : 10 ≤ s := by
    rw [hv] at h10
    exact le_of_mul_le_mul_right h10 h1W
  refine ⟨s, ⟨⟨hgr.1, hs10⟩, fun y hy => hgr.2 hy.1⟩, ?_⟩
  rw [max_theoretical_recovery_flow_opt, if_pos hα, hv]

/-- A concrete model for the C10 witness: one source, weekly flow 14 at
concentration 10, so the greedy flow 14 reaches the LP lower bound. -/
def c10WitnessModel : GModel where
  p_alpha := fun _ _ => 1
  p_alphaW := fun _ => 0
  p_FGen := [(("S1", "T1"), 2)]
  p_CGen := fun _ _ _ => 10

/-- Witness for C10 (amended): on `c10WitnessModel` with target 5 the
greedy function returns 14, the LP optimum exists, and the `_opt` function
returns the same 14. -/
theorem claim_C10_witness :
    ∃ s, IsGreatest (lpSet c10WitnessModel "TU" 5) s ∧
      max_theoretical_recovery_flow_opt c10WitnessModel "TU" 5 (some s) =
        .ok 14 :=
  claim_C10 c10WitnessModel "TU" 5 14
    (by norm_num [c10WitnessModel])
    (by
      intro p hp
      simp only [pairsOf, c10WitnessModel, List.map_cons, List.map_nil,
        List.mem_singleton] at hp
      subst hp
      norm_num)
    (by norm_num [c10WitnessModel])
    (by
      simp [max_theoretical_recovery_flow, sortedPairsOf, pairsOf, c10WitnessModel,
        accumulate, List.insertionSort, List.orderedInsert, concGE, Except.map]
      norm_num)
    (by norm_num [c10WitnessModel])

end ParetoCM
